import Mathlib

/-!
Shallow embedding of the `duct` container-orchestration library
(package `github.com/erikh/duct`): the `Composer` lifecycle —
`Launch`, `Teardown`, `HandleSignals` — over an abstract container
engine.  The engine (docker client) is modelled as an oracle `Engine`
of deterministic responses; each lifecycle function returns the
sequence of engine interactions it performed (an event trace) together
with its error result, so that ordering and rollback properties can be
stated about the trace.

Go maps (`BindMounts`, `PortForwards`, `Options`) are modelled as
association lists; Go's nondeterministic map-iteration order is fixed
to list order, which is irrelevant to the properties proved here.
The caller-supplied `AliveFunc` closure is modelled by a presence flag
on the container plus an oracle response keyed by container id.
Global log output (`log.Printf`, the `log_writer` option redirection)
has no engine-visible effect and is not modelled.
-/

namespace Duct

/-- Translation of `dc.HostMount` as filled in by `Launch`: a bind
mount with a source (host) and target (container) path. -/
structure HostMount where
  source : String
  target : String
deriving DecidableEq, Repr

/-- Arguments of `client.CreateContainer` as assembled by `Launch`
(duct.go `Launch`, the `dc.CreateContainerOptions` literal). -/
structure CreateOpts where
  name : String
  hostname : String
  image : String
  env : List String
  cmd : List String
  entrypoint : List String
  exposed : List String
  mounts : List HostMount
  bindings : List (String × String)
  networkID : String
  aliases : List String
deriving DecidableEq, Repr

/-- One engine (or OS) interaction performed by `Launch` or `Teardown`.
`absPath` stands for the `filepath.Abs` OS call made while resolving
relative bind-mount host paths. -/
inductive EngineCall where
  | createNetwork (name : String)
  | pullImage (image : String)
  | absPath (path : String)
  | createContainer (opts : CreateOpts)
  | startContainer (id : String)
  | aliveFunc (id : String)
  | createExec (id : String) (cmd : List String)
  | startExec (execID : String)
  | inspectExec (execID : String)
  | killContainer (id : String)
  | removeContainer (id : String)
  | removeNetwork (id : String)
deriving DecidableEq, Repr

/-- An entry of the observable trace of a lifecycle call: an engine
call, the `time.Sleep(cont.BootWait)` delay, or the invocation of the
signal watcher's cancellation function (`c.sigCancel()`). -/
inductive Event where
  | call (c : EngineCall)
  | sleep (d : Nat)
  | cancelWatcher
deriving DecidableEq, Repr

/-- Translation of `duct.Container`.  `hasAliveFunc` records whether
the Go `AliveFunc` field is non-nil (the closure itself lives in the
`Engine` oracle); `id` is the unexported runtime identifier field,
empty until creation succeeds. -/
structure Container where
  name : String
  env : List String := []
  postCommands : List (List String) := []
  command : List String := []
  entrypoint : List String := []
  image : String := ""
  bindMounts : List (String × String) := []
  localImage : Bool := false
  bootWait : Nat := 0
  hasAliveFunc : Bool := false
  portForwards : List (Nat × Nat) := []
  id : String := ""
deriving DecidableEq, Repr

/-- Translation of `duct.Manifest`: the containers to run, in order. -/
abbrev Manifest := List Container

/-- Translation of the `duct.Options` map, restricted to the three
keys the library reads: `create_network`, `existing_network`,
`log_writer`.  A field is `some` exactly when the key is present with
a non-nil value.  `logWriter` carries whether the supplied writer is
itself non-nil. -/
structure Options where
  createNetwork : Option String := none
  existingNetwork : Option String := none
  logWriter : Option Bool := none
deriving DecidableEq, Repr

/-- Translation of `duct.Composer`.  `sigArmed` records whether
`sigCancel` is non-nil, i.e. whether `HandleSignals` has armed the
signal watcher. -/
structure Composer where
  manifest : Manifest
  options : Options
  netID : String := ""
  sigArmed : Bool := false
deriving DecidableEq, Repr

/-- Oracle of deterministic responses of the container engine (and of
`filepath.Abs`): one field per fallible call the library makes.
`newClient` is `dc.NewClientFromEnv`; `none` / `Except.ok` means the
call succeeds. -/
structure Engine where
  newClient : Option String
  createNetwork : String → Except String String
  pullImage : String → Option String
  absPath : String → Except String String
  createContainer : CreateOpts → Except String String
  startContainer : String → Option String
  aliveFunc : String → Option String
  createExec : String → List String → Except String String
  startExec : String → Option String
  inspectExec : String → Except String Int
  killContainer : String → Option String
  removeContainer : String → Option String
  removeNetwork : String → Option String

/-- Result of a lifecycle call: the Composer afterwards (Go mutates
the receiver in place), the event trace, and the returned error. -/
structure RunResult where
  comp : Composer
  trace : List Event
  err : Option String

/-- Returns true when an `Except` result is `ok`. -/
def exOk {α : Type} : Except String α → Bool
  | .ok _ => true
  | .error _ => false

/-- Translation of `fmt.Sprintf("%d/tcp", to)` used for port keys. -/
def portKey (toPort : Nat) : String := toString toPort ++ "/tcp"

/-- Translation of the `exposed` map built from `cont.PortForwards`
(`Launch`, ports loop): the exposed container-side port keys. -/
def exposedPorts (pf : List (Nat × Nat)) : List String :=
  pf.map (fun p => portKey p.2)

/-- Translation of the `bindings` map built from `cont.PortForwards`
(`Launch`, ports loop): container-side port key paired with the host
port bound on 0.0.0.0. -/
def portBindings (pf : List (Nat × Nat)) : List (String × String) :=
  pf.map (fun p => (portKey p.2, toString p.1))

/-- Translation of the bind-mount loop of `Launch`: each relative host
path goes through `filepath.Abs` (an `absPath` event); the first
failure aborts with that error, exactly as the Go loop returns on the
first `filepath.Abs` error. -/
def resolveMounts (e : Engine) : List (String × String) → List Event × Except String (List HostMount)
  | [] => ([], .ok [])
  | (host, target) :: rest =>
    if host.startsWith "/" then
      match resolveMounts e rest with
      | (evs, .error err) => (evs, .error err)
      | (evs, .ok ms) => (evs, .ok ({ source := host, target := target } :: ms))
    else
      match e.absPath host with
      | .error err => ([Event.call (.absPath host)], .error err)
      | .ok hostAbs =>
        match resolveMounts e rest with
        | (evs, .error err) => (Event.call (.absPath host) :: evs, .error err)
        | (evs, .ok ms) =>
          (Event.call (.absPath host) :: evs, .ok ({ source := hostAbs, target := target } :: ms))

/-- Translation of the `dc.CreateContainerOptions` literal of `Launch`:
the container's name doubles as hostname and network alias, and the
resolved mounts, ports and network id are attached. -/
def createOptsOf (netID : String) (cont : Container) (mounts : List HostMount) : CreateOpts :=
  { name := cont.name
    hostname := cont.name
    image := cont.image
    env := cont.env
    cmd := cont.command
    entrypoint := cont.entrypoint
    exposed := exposedPorts cont.portForwards
    mounts := mounts
    bindings := portBindings cont.portForwards
    networkID := netID
    aliases := [cont.name] }

/-- Translation of one iteration of the creation loop of `Launch`
(pull unless `LocalImage`, resolve bind mounts, build port maps,
`CreateContainer`, record the runtime id).  The error result is the
step's own error; the container is returned with its `id` set only
when creation succeeded, matching `cont.id = ctr.ID`. -/
def createOne (e : Engine) (netID : String) (cont : Container) : List Event × Except String Container :=
  let pullEvs := if cont.localImage then [] else [Event.call (.pullImage cont.image)]
  let pullRes := if cont.localImage then none else e.pullImage cont.image
  match pullRes with
  | some err => (pullEvs, .error err)
  | none =>
    match resolveMounts e cont.bindMounts with
    | (mEvs, .error err) => (pullEvs ++ mEvs, .error err)
    | (mEvs, .ok mounts) =>
      let opts : CreateOpts := createOptsOf netID cont mounts
      match e.createContainer opts with
      | .error err => (pullEvs ++ mEvs ++ [Event.call (.createContainer opts)], .error err)
      | .ok ctrID =>
        (pullEvs ++ mEvs ++ [Event.call (.createContainer opts)], .ok { cont with id := ctrID })

/-- Translation of the creation loop of `Launch` over the whole
manifest.  Returns the manifest with runtime ids recorded for the
processed prefix (the failing container and its successors are
unchanged, as in Go where `cont.id` is only assigned on success),
the events performed, and the first failure if any.  In the Go source
each failure site calls `c.Teardown(ctx)` and returns; since a failure
aborts the loop with no further engine calls, `Launch` below invokes
`Teardown` once at the phase exit with the identical partially-updated
manifest, producing the identical trace and result. -/
def createPhase (e : Engine) (netID : String) : List Container → List Container × List Event × Option String
  | [] => ([], [], none)
  | cont :: rest =>
    match createOne e netID cont with
    | (evs, .error err) => (cont :: rest, evs, some err)
    | (evs, .ok contDone) =>
      let (m, evs2, err) := createPhase e netID rest
      (contDone :: m, evs ++ evs2, err)

/-- Translation of
`fmt.Errorf("[%s] invalid exit code from postcommand: [%s]", cont.Name, strings.Join(command, " "))`. -/
def invalidExitMsg (name : String) (cmd : List String) : String :=
  "[" ++ name ++ "] invalid exit code from postcommand: [" ++ String.intercalate " " cmd ++ "]"

/-- Translation of the post-command loop of `Launch` for one
container: for each command, `CreateExec`, `StartExec`, `InspectExec`;
any error, or a non-zero inspected exit code, aborts with that
failure, leaving later commands unexecuted. -/
def runPostCommands (e : Engine) (name ctrID : String) : List (List String) → List Event × Option String
  | [] => ([], none)
  | cmd :: rest =>
    match e.createExec ctrID cmd with
    | .error err => ([Event.call (.createExec ctrID cmd)], some err)
    | .ok execID =>
      match e.startExec execID with
      | some err => ([Event.call (.createExec ctrID cmd), Event.call (.startExec execID)], some err)
      | none =>
        match e.inspectExec execID with
        | .error err =>
          ([Event.call (.createExec ctrID cmd), Event.call (.startExec execID),
            Event.call (.inspectExec execID)], some err)
        | .ok code =>
          if code ≠ 0 then
            ([Event.call (.createExec ctrID cmd), Event.call (.startExec execID),
              Event.call (.inspectExec execID)], some (invalidExitMsg name cmd))
          else
            let (evs, err) := runPostCommands e name ctrID rest
            (Event.call (.createExec ctrID cmd) :: Event.call (.startExec execID) ::
              Event.call (.inspectExec execID) :: evs, err)

/-- Translation of one iteration of the start loop of `Launch`:
`StartContainerWithContext`, the optional `time.Sleep(cont.BootWait)`,
the optional `AliveFunc`, then the post-commands. -/
def startOne (e : Engine) (cont : Container) : List Event × Option String :=
  match e.startContainer cont.id with
  | some err => ([Event.call (.startContainer cont.id)], some err)
  | none =>
    let bootEvs := if cont.bootWait ≠ 0 then [Event.sleep cont.bootWait] else []
    let aliveEvs := if cont.hasAliveFunc then [Event.call (.aliveFunc cont.id)] else []
    let aliveRes := if cont.hasAliveFunc then e.aliveFunc cont.id else none
    match aliveRes with
    | some err => (Event.call (.startContainer cont.id) :: (bootEvs ++ aliveEvs), some err)
    | none =>
      let (pEvs, pErr) := runPostCommands e cont.name cont.id cont.postCommands
      (Event.call (.startContainer cont.id) :: (bootEvs ++ aliveEvs ++ pEvs), pErr)

/-- Translation of the start loop of `Launch` over the whole manifest;
the first failure aborts (each Go failure site tears down and returns,
hoisted to the phase exit in `Launch` below as for `createPhase`). -/
def startPhase (e : Engine) : List Container → List Event × Option String
  | [] => ([], none)
  | cont :: rest =>
    match startOne e cont with
    | (evs, some err) => (evs, some err)
    | (evs, none) =>
      let (evs2, err) := startPhase e rest
      (evs ++ evs2, err)

/-- Translation of the network-resolution step of `Launch` (the
`create_network` / `existing_network` / error if-chain): create a new
bridge network, or adopt the configured existing network id, or fail
fast with the configuration error. -/
def resolveNetwork (e : Engine) (o : Options) : List Event × Except String String :=
  match o.createNetwork with
  | some name =>
    match e.createNetwork name with
    | .error err => ([Event.call (.createNetwork name)], .error err)
    | .ok netID => ([Event.call (.createNetwork name)], .ok netID)
  | none =>
    match o.existingNetwork with
    | some ident => ([], .ok ident)
    | none => ([], .error "compositions must have a network specified")

/-- Translation of the container loop of `Teardown`: for each
container with a non-empty runtime id, `KillContainer` with SIGKILL
then force `RemoveContainer`, recording (not propagating) whether
either failed; containers with an empty id are skipped. -/
def teardownContainers (e : Engine) : List Container → List Event × Bool
  | [] => ([], false)
  | cont :: rest =>
    let (evs, errs) := teardownContainers e rest
    if cont.id ≠ "" then
      (Event.call (.killContainer cont.id) :: Event.call (.removeContainer cont.id) :: evs,
        (((e.killContainer cont.id).isSome || (e.removeContainer cont.id).isSome) || errs))
    else
      (evs, errs)

/-- Translation of `Composer.Teardown`: cancel the armed signal
watcher first (`if c.sigCancel != nil { c.sigCancel() }`), construct
the client, kill and remove every container with a recorded id,
remove the network only in `create_network` mode, and return the
single aggregate error exactly when any sub-step failed.  The Go
method assigns no field of the receiver, so the Composer is returned
unchanged. -/
def Teardown (e : Engine) (c : Composer) : RunResult :=
  let cancelEvs := if c.sigArmed then [Event.cancelWatcher] else []
  match e.newClient with
  | some err => { comp := c, trace := cancelEvs, err := some err }
  | none =>
    let (ctEvs, errs1) := teardownContainers e c.manifest
    let netEvs := if (c.options.createNetwork).isSome then [Event.call (.removeNetwork c.netID)] else []
    let errs2 := errs1 || ((c.options.createNetwork).isSome && (e.removeNetwork c.netID).isSome)
    { comp := c
      trace := cancelEvs ++ ctEvs ++ netEvs
      err := if errs2 then some "there were errors (see log)" else none }

/-- Translation of `Composer.Launch`: construct the client, resolve
the network (failing fast with no rollback), create every container in
manifest order, then start each in manifest order running boot-wait,
alive check and post-commands; any failure after network resolution
invokes `Teardown` (whose own error is discarded, as in Go) and
returns the step's error. -/
def Launch (e : Engine) (c : Composer) : RunResult :=
  match e.newClient with
  | some err => { comp := c, trace := [], err := some err }
  | none =>
    match resolveNetwork e c.options with
    | (nEvs, .error err) => { comp := c, trace := nEvs, err := some err }
    | (nEvs, .ok netID) =>
      match createPhase e netID c.manifest with
      | (m, cEvs, some err) =>
        let c2 : Composer := { c with netID := netID, manifest := m }
        let td := Teardown e c2
        { comp := c2, trace := nEvs ++ cEvs ++ td.trace, err := some err }
      | (m, cEvs, none) =>
        let c2 : Composer := { c with netID := netID, manifest := m }
        match startPhase e m with
        | (sEvs, some err) =>
          let td := Teardown e c2
          { comp := c2, trace := nEvs ++ cEvs ++ sEvs ++ td.trace, err := some err }
        | (sEvs, none) => { comp := c2, trace := nEvs ++ cEvs ++ sEvs, err := none }

/-- Translation of option merging in `duct.New`: later option maps
override keys of earlier ones (per-key assignment into one map). -/
def mergeOptions (l : List Options) : Options :=
  l.foldl
    (fun acc o =>
      { createNetwork := (o.createNetwork).orElse (fun _ => acc.createNetwork)
        existingNetwork := (o.existingNetwork).orElse (fun _ => acc.existingNetwork)
        logWriter := (o.logWriter).orElse (fun _ => acc.logWriter) })
    {}

/-- Translation of `duct.New`. -/
def New (manifest : Manifest) (options : List Options) : Composer :=
  { manifest := manifest, options := mergeOptions options }

/-- Translation of arming in `Composer.HandleSignals`: installs the
cancellation handle (`c.sigCancel = cancel`), so the watcher is armed. -/
def HandleSignals (c : Composer) : Composer :=
  { c with sigArmed := true }

/-- One observable action of the signal-watcher goroutine started by
`HandleSignals`: the log line, the synchronous `c.Teardown` call, the
`signal.Stop(sigChan)` deregistration, or the `unix.Kill` re-raise. -/
inductive WatcherEvent where
  | logSignalled
  | teardown
  | deregister
  | forwardSignal (sig : Nat)
deriving DecidableEq, Repr

/-- Which branch of the watcher's `select` fires: a termination signal
arrived on `sigChan`, or the context was cancelled. -/
inductive WatcherOutcome where
  | signal (sig : Nat)
  | cancelled
deriving DecidableEq, Repr

/-- Translation of the watcher goroutine body of `HandleSignals`: on a
signal, log, call `c.Teardown`, then `signal.Stop`, then forward the
signal if requested; on cancellation, `signal.Stop` and exit. -/
def watcherRun (forward : Bool) : WatcherOutcome → List WatcherEvent
  | .signal sig =>
    [WatcherEvent.logSignalled, WatcherEvent.teardown, WatcherEvent.deregister] ++
      (if forward then [WatcherEvent.forwardSignal sig] else [])
  | .cancelled => [WatcherEvent.deregister]

/-- Holds of an event whose underlying engine call succeeded under the
oracle `e` (for `InspectExec` this additionally requires a zero exit
code, matching the launch gate); sleeps and the watcher cancellation
are infallible. -/
def evOk (e : Engine) : Event → Bool
  | .cancelWatcher => true
  | .sleep _ => true
  | .call (.createNetwork n) => exOk (e.createNetwork n)
  | .call (.pullImage i) => (e.pullImage i).isNone
  | .call (.absPath p) => exOk (e.absPath p)
  | .call (.createContainer o) => exOk (e.createContainer o)
  | .call (.startContainer i) => (e.startContainer i).isNone
  | .call (.aliveFunc i) => (e.aliveFunc i).isNone
  | .call (.createExec i cmd) => exOk (e.createExec i cmd)
  | .call (.startExec x) => (e.startExec x).isNone
  | .call (.inspectExec x) =>
    match e.inspectExec x with
    | .ok code => decide (code = 0)
    | .error _ => false
  | .call (.killContainer i) => (e.killContainer i).isNone
  | .call (.removeContainer i) => (e.removeContainer i).isNone
  | .call (.removeNetwork i) => (e.removeNetwork i).isNone

/-- Two engine oracles agree on every call `Launch` itself performs
(everything except the teardown-side kill/remove/removeNetwork). -/
def launchAgree (e eB : Engine) : Prop :=
  e.newClient = eB.newClient ∧
  e.createNetwork = eB.createNetwork ∧
  e.pullImage = eB.pullImage ∧
  e.absPath = eB.absPath ∧
  e.createContainer = eB.createContainer ∧
  e.startContainer = eB.startContainer ∧
  e.aliveFunc = eB.aliveFunc ∧
  e.createExec = eB.createExec ∧
  e.startExec = eB.startExec ∧
  e.inspectExec = eB.inspectExec

/-- Modelled from the spec (4.2): the event trace `Teardown` must
produce — the watcher cancellation if armed, then kill + force-remove
for exactly the containers with a recorded identifier, in manifest
order, then the network removal exactly in create-network mode. -/
def teardownSpecTrace (c : Composer) : List Event :=
  (if c.sigArmed then [Event.cancelWatcher] else []) ++
    (c.manifest.map (fun cont =>
      if cont.id ≠ "" then
        [Event.call (.killContainer cont.id), Event.call (.removeContainer cont.id)]
      else [])).flatten ++
    (if (c.options.createNetwork).isSome then [Event.call (.removeNetwork c.netID)] else [])

/-- Modelled from the spec (4.2): at least one teardown sub-step
(kill, remove, or the create-mode network removal) fails under `e`. -/
def teardownSpecFailed (e : Engine) (c : Composer) : Bool :=
  (c.manifest.any (fun cont =>
    decide (cont.id ≠ "") &&
      ((e.killContainer cont.id).isSome || (e.removeContainer cont.id).isSome))) ||
    ((c.options.createNetwork).isSome && (e.removeNetwork c.netID).isSome)

/-- Names of the containers whose creation was attempted, in trace
order. -/
def createNames (tr : List Event) : List String :=
  tr.filterMap (fun ev =>
    match ev with
    | .call (.createContainer o) => some o.name
    | _ => none)

/-- Runtime ids of the containers whose start was attempted, in trace
order. -/
def startIds (tr : List Event) : List String :=
  tr.filterMap (fun ev =>
    match ev with
    | .call (.startContainer i) => some i
    | _ => none)

/-- Events one post-command contributes under oracle `e` (create exec,
then start and inspect as far as the calls succeed). -/
def cmdEvents (e : Engine) (ctrID : String) (cmd : List String) : List Event :=
  match e.createExec ctrID cmd with
  | .error _ => [Event.call (.createExec ctrID cmd)]
  | .ok x =>
    match e.startExec x with
    | some _ => [Event.call (.createExec ctrID cmd), Event.call (.startExec x)]
    | none =>
      [Event.call (.createExec ctrID cmd), Event.call (.startExec x),
        Event.call (.inspectExec x)]

/-- Holds when a post-command runs cleanly under `e`: exec creation
and start succeed and the inspected exit code is zero. -/
def cmdOk (e : Engine) (ctrID : String) (cmd : List String) : Prop :=
  ∃ x, e.createExec ctrID cmd = .ok x ∧ e.startExec x = none ∧ e.inspectExec x = .ok 0

/-- Engine oracle on which every call succeeds and every exec exits 0;
used to evaluate the theorems on concrete inputs. -/
def okEngine : Engine :=
  { newClient := none
    createNetwork := fun name => .ok ("net-" ++ name)
    pullImage := fun _ => none
    absPath := fun p => .ok ("/abs/" ++ p)
    createContainer := fun o => .ok ("ctr-" ++ o.name)
    startContainer := fun _ => none
    aliveFunc := fun _ => none
    createExec := fun i _ => .ok ("exec-" ++ i)
    startExec := fun _ => none
    inspectExec := fun _ => .ok 0
    killContainer := fun _ => none
    removeContainer := fun _ => none
    removeNetwork := fun _ => none }

/-- Engine like `okEngine` except every inspected exec exits 1. -/
def badExitEngine : Engine :=
  { okEngine with inspectExec := fun _ => .ok 1 }

/-- Engine like `okEngine` except network creation fails. -/
def netFailEngine : Engine :=
  { okEngine with createNetwork := fun _ => .error "network create failed" }

/-- Two-container manifest mirroring the repository tests. -/
def sampleManifest : Manifest :=
  [{ name := "target", image := "debian:latest", command := ["sleep", "infinity"] },
   { name := "web", image := "nginx:latest", portForwards := [(8080, 80)] }]

/-- Composer over `sampleManifest` in create-network mode, not yet
launched. -/
def sampleComposer : Composer :=
  New sampleManifest [Options.mk (some "duct-test-network") none none]

/-- Composer state as after a successful launch under `okEngine`:
runtime ids recorded, network id resolved. -/
def sampleLaunched : Composer :=
  (Launch okEngine sampleComposer).comp

/-- Single-container manifest whose sole post-command will be
inspected with a non-zero exit (under `badExitEngine`). -/
def badExitComposer : Composer :=
  New [{ name := "post-command-exit", image := "debian:latest",
         command := ["sleep", "infinity"], postCommands := [["false"], ["echo", "hi"]] }]
    [Options.mk (some "duct-test-network") none none]

/-- Composer constructed with no network option at all. -/
def noNetComposer : Composer :=
  New sampleManifest []

theorem teardownContainers_eq (e : Engine) (l : List Container) :
    teardownContainers e l =
      ((l.map (fun cont =>
          if cont.id ≠ "" then
            [Event.call (.killContainer cont.id), Event.call (.removeContainer cont.id)]
          else [])).flatten,
        l.any (fun cont =>
          decide (cont.id ≠ "") &&
            ((e.killContainer cont.id).isSome || (e.removeContainer cont.id).isSome))) := by
  induction l with
  | nil => rfl
  | cons cont rest ih =>
    by_cases h : cont.id = ""
    · simp [teardownContainers, ih, h]
    · simp [teardownContainers, ih, h]

theorem Teardown_eq (e : Engine) (c : Composer) (h : e.newClient = none) :
    Teardown e c =
      { comp := c, trace := teardownSpecTrace c,
        err := if teardownSpecFailed e c then some "there were errors (see log)" else none } := by
  unfold Teardown
  rw [h, teardownContainers_eq]
  rfl

theorem Teardown_comp (e : Engine) (c : Composer) : (Teardown e c).comp = c := by
  cases hnc : e.newClient <;> simp [Teardown, hnc]

/-- C2: for every Composer state (with a constructible client),
`Teardown` kills then force-removes exactly the containers with a
non-empty runtime identifier in manifest order, skipping the rest,
visits the network step afterwards, and returns the single aggregate
error exactly when at least one sub-step failed, `none` otherwise. -/
theorem c2_teardown_matches_spec (e : Engine) (c : Composer)
    (h : e.newClient = none) :
    (Teardown e c).trace = teardownSpecTrace c ∧
    (Teardown e c).err =
      (if teardownSpecFailed e c then some "there were errors (see log)" else none) := by
  rw [Teardown_eq e c h]
  exact ⟨rfl, rfl⟩

theorem c2_teardown_matches_spec_witness :
    okEngine.newClient = none ∧
    ((Teardown okEngine sampleLaunched).trace = teardownSpecTrace sampleLaunched ∧
      (Teardown okEngine sampleLaunched).err =
        (if teardownSpecFailed okEngine sampleLaunched then some "there were errors (see log)"
         else none)) :=
  ⟨rfl, c2_teardown_matches_spec okEngine sampleLaunched rfl⟩

/-- C4: on a Composer none of whose containers ever received a runtime
identifier (Launch never ran, or failed before creating anything),
`Teardown` performs no container kill or removal at all, and the only
possible error source is the network-removal step: whenever that step
is absent (attach mode) or succeeds, `Teardown` returns no error. -/
theorem c4_teardown_noop_without_ids (e : Engine) (c : Composer)
    (hclient : e.newClient = none)
    (hids : ∀ cont ∈ c.manifest, cont.id = "") :
    (∀ ev ∈ (Teardown e c).trace,
        (∀ i, ev ≠ Event.call (.killContainer i)) ∧
        (∀ i, ev ≠ Event.call (.removeContainer i))) ∧
    ((c.options.createNetwork = none ∨ e.removeNetwork c.netID = none) →
      (Teardown e c).err = none) := by
  rw [Teardown_eq e c hclient]
  constructor
  · intro ev hev
    simp only [teardownSpecTrace, List.mem_append] at hev
    rcases hev with (hev | hev) | hev
    · cases hsig : c.sigArmed <;> rw [hsig] at hev
      · simp at hev
      · simp at hev
        subst hev
        simp
    · rw [List.mem_flatten] at hev
      obtain ⟨l, hl, hevl⟩ := hev
      rw [List.mem_map] at hl
      obtain ⟨cont, hcont, hfl⟩ := hl
      rw [hids cont hcont] at hfl
      simp at hfl
      simp [hfl] at hevl
    · rcases hcn : c.options.createNetwork with _ | nm <;> rw [hcn] at hev
      · simp at hev
      · simp at hev
        subst hev
        simp
  · intro hnet
    have hany : (c.manifest.any fun cont =>
        decide (cont.id ≠ "") &&
          ((e.killContainer cont.id).isSome || (e.removeContainer cont.id).isSome)) = false := by
      rw [List.any_eq_false]
      intro cont hcont
      simp [hids cont hcont]
    simp only [teardownSpecFailed, hany, Bool.false_or]
    rcases hnet with hnet | hnet
    · simp [hnet]
    · simp [hnet]

theorem c4_teardown_noop_without_ids_witness :
    okEngine.newClient = none ∧
    (∀ cont ∈ sampleComposer.manifest, cont.id = "") ∧
    ((∀ ev ∈ (Teardown okEngine sampleComposer).trace,
        (∀ i, ev ≠ Event.call (.killContainer i)) ∧
        (∀ i, ev ≠ Event.call (.removeContainer i))) ∧
      ((sampleComposer.options.createNetwork = none ∨
          okEngine.removeNetwork sampleComposer.netID = none) →
        (Teardown okEngine sampleComposer).err = none)) :=
  ⟨rfl, by decide,
    c4_teardown_noop_without_ids okEngine sampleComposer rfl (by decide)⟩

/-- C5 counterexample: after a completed `Teardown` of a launched
Composer (which killed and removed container `ctr-target`), a second
consecutive `Teardown` call does attempt to kill that already-removed
container again — refuting the claim that it skips them, because
`Teardown` never clears the recorded identifiers. -/
theorem c5_counterexample :
    Event.call (EngineCall.killContainer "ctr-target") ∈
      (Teardown okEngine (Teardown okEngine sampleLaunched).comp).trace := by decide

/-- C5 (amended): a second consecutive `Teardown` cannot panic and
behaves exactly as the first call did: `Teardown` leaves the Composer
(and in particular every recorded identifier) unchanged, so the second
call re-attempts the kill and removal of every container with a
non-empty identifier and skips exactly the containers that never
received one. -/
theorem c5_second_teardown_repeats_first (e : Engine) (c : Composer) :
    (Teardown e c).comp = c ∧
    Teardown e (Teardown e c).comp = Teardown e c := by
  refine ⟨Teardown_comp e c, ?_⟩
  rw [Teardown_comp e c]

/-- C7: `Teardown` issues the removal of the Composer's network
exactly in create-network mode — as the final step — and in
attach-to-existing-network mode its trace contains no network-removal
call at all. -/
theorem c7_network_removed_iff_created (e : Engine) (c : Composer)
    (hclient : e.newClient = none) :
    ((c.options.createNetwork).isSome = true →
      ∃ p, (Teardown e c).trace = p ++ [Event.call (.removeNetwork c.netID)]) ∧
    ((c.options.createNetwork).isSome = false →
      ∀ ev ∈ (Teardown e c).trace, ∀ n, ev ≠ Event.call (.removeNetwork n)) := by
  rw [Teardown_eq e c hclient]
  constructor
  · intro hcn
    refine ⟨(if c.sigArmed then [Event.cancelWatcher] else []) ++
      (c.manifest.map (fun cont =>
        if cont.id ≠ "" then
          [Event.call (.killContainer cont.id), Event.call (.removeContainer cont.id)]
        else [])).flatten, ?_⟩
    simp [teardownSpecTrace, hcn]
  · intro hcn ev hev n
    simp only [teardownSpecTrace, hcn, Bool.false_eq_true, if_false,
      List.append_nil, List.mem_append] at hev
    rcases hev with hev | hev
    · rcases hsig : c.sigArmed <;> rw [hsig] at hev
      · simp at hev
      · simp at hev
        rw [hev]
        simp
    · rw [List.mem_flatten] at hev
      obtain ⟨l, hl, hevl⟩ := hev
      rw [List.mem_map] at hl
      obtain ⟨cont, _, hfl⟩ := hl
      rw [← hfl] at hevl
      by_cases hid : cont.id = ""
      · simp [hid] at hevl
      · simp [hid] at hevl
        rcases hevl with hevl | hevl <;> rw [hevl] <;> simp

theorem c7_network_removed_iff_created_witness :
    okEngine.newClient = none ∧
    (((sampleLaunched.options.createNetwork).isSome = true →
      ∃ p, (Teardown okEngine sampleLaunched).trace =
        p ++ [Event.call (.removeNetwork sampleLaunched.netID)]) ∧
    ((sampleLaunched.options.createNetwork).isSome = false →
      ∀ ev ∈ (Teardown okEngine sampleLaunched).trace,
        ∀ n, ev ≠ Event.call (.removeNetwork n))) :=
  ⟨rfl, c7_network_removed_iff_created okEngine sampleLaunched rfl⟩

/-- C10: on a Composer whose signal watcher is armed, `Teardown`
emits the watcher cancellation as the very first entry of its trace —
before the client is even constructed, hence before any engine call —
and the watcher's cancellation branch only deregisters, never invoking
Teardown itself. -/
theorem c10_teardown_cancels_watcher_first (e : Engine) (c : Composer)
    (h : c.sigArmed = true) :
    (∃ rest, (Teardown e c).trace = Event.cancelWatcher :: rest) ∧
    (∀ forward, watcherRun forward WatcherOutcome.cancelled = [WatcherEvent.deregister] ∧
      WatcherEvent.teardown ∉ watcherRun forward WatcherOutcome.cancelled) := by
  constructor
  · cases hnc : e.newClient <;> simp [Teardown, hnc, h]
  · intro forward
    simp [watcherRun]

theorem c10_teardown_cancels_watcher_first_witness :
    (HandleSignals sampleComposer).sigArmed = true ∧
    ((∃ rest, (Teardown okEngine (HandleSignals sampleComposer)).trace =
        Event.cancelWatcher :: rest) ∧
      (∀ forward, watcherRun forward WatcherOutcome.cancelled = [WatcherEvent.deregister] ∧
        WatcherEvent.teardown ∉ watcherRun forward WatcherOutcome.cancelled)) :=
  ⟨rfl, c10_teardown_cancels_watcher_first okEngine (HandleSignals sampleComposer) rfl⟩

/-- C3 counterexample: on the fired path of the signal watcher (here:
forwarding requested, signal 15), the deregistration does not precede
the `Teardown` invocation — the watcher tears down first and only then
deregisters the signal interest, refuting the claimed order. -/
theorem c3_counterexample :
    ¬ ((watcherRun true (WatcherOutcome.signal 15)).indexOf WatcherEvent.deregister <
        (watcherRun true (WatcherOutcome.signal 15)).indexOf WatcherEvent.teardown) := by
  decide

/-- C3 (amended): when the armed watcher receives a termination
signal its fired path performs, in order: log, invoke Teardown
synchronously, then deregister the signal interest, then re-raise the
same signal only if forwarding was requested; the cancellation path
deregisters and exits without invoking Teardown. -/
theorem c3_watcher_fired_order (forward : Bool) (sig : Nat) :
    watcherRun forward (WatcherOutcome.signal sig) =
      WatcherEvent.logSignalled :: WatcherEvent.teardown :: WatcherEvent.deregister ::
        (if forward then [WatcherEvent.forwardSignal sig] else []) ∧
    watcherRun forward WatcherOutcome.cancelled = [WatcherEvent.deregister] ∧
    WatcherEvent.teardown ∉ watcherRun forward WatcherOutcome.cancelled := by
  refine ⟨?_, rfl, by simp [watcherRun]⟩
  cases forward <;> rfl

theorem resolveMounts_ok (e : Engine) (l : List (String × String))
    (h : exOk (resolveMounts e l).2 = true) :
    ((resolveMounts e l).1).all (evOk e) = true := by
  induction l with
  | nil => rfl
  | cons pr rest ih =>
    obtain ⟨host, target⟩ := pr
    rcases hrm : resolveMounts e rest with ⟨evs, res⟩
    rw [hrm] at ih
    cases habs : host.startsWith "/" with
    | true =>
      simp only [resolveMounts, habs, if_true, hrm] at h ⊢
      cases res with
      | error err => simp [exOk] at h
      | ok ms => exact ih rfl
    | false =>
      rcases hab : e.absPath host with err | hostAbs
      · simp only [resolveMounts, habs, Bool.false_eq_true, if_false, hab] at h
        simp [exOk] at h
      · simp only [resolveMounts, habs, Bool.false_eq_true, if_false, hab, hrm] at h ⊢
        cases res with
        | error err2 => simp [exOk] at h
        | ok ms =>
          simp only [List.all_cons, Bool.and_eq_true]
          exact ⟨by simp [evOk, hab, exOk], ih rfl⟩

theorem createOne_ok (e : Engine) (nid : String) (cont : Container)
    (h : exOk (createOne e nid cont).2 = true) :
    ((createOne e nid cont).1).all (evOk e) = true := by
  have hpull : ∀ r, (if cont.localImage then none else e.pullImage cont.image) = r → True :=
    fun _ _ => trivial
  rcases hpr : (if cont.localImage then none else e.pullImage cont.image) with _ | err
  · rcases hrm : resolveMounts e cont.bindMounts with ⟨mEvs, mres⟩
    cases mres with
    | error err =>
      simp only [createOne, hpr, hrm] at h
      simp [exOk] at h
    | ok mounts =>
      rcases hcc : e.createContainer (createOptsOf nid cont mounts) with err | ctrID
      · simp only [createOne, hpr, hrm, hcc] at h
        simp [exOk] at h
      · have hmok : mEvs.all (evOk e) = true := by
          have := resolveMounts_ok e cont.bindMounts (by rw [hrm]; rfl)
          rw [hrm] at this
          exact this
        have hpok : (if cont.localImage then ([] : List Event)
            else [Event.call (.pullImage cont.image)]).all (evOk e) = true := by
          cases hli : cont.localImage with
          | true => simp [hli]
          | false =>
            rw [hli] at hpr
            simp only [if_false, Bool.false_eq_true] at hpr
            simp [hli, evOk, hpr]
        simp only [createOne, hpr, hrm, hcc, List.all_append, Bool.and_eq_true]
        exact ⟨⟨hpok, hmok⟩, by simp [evOk, hcc, exOk]⟩
  · simp only [createOne, hpr] at h
    simp [exOk] at h

theorem createPhase_ok (e : Engine) (nid : String) (l : List Container)
    (h : (createPhase e nid l).2.2 = none) :
    ((createPhase e nid l).2.1).all (evOk e) = true := by
  induction l with
  | nil => rfl
  | cons cont rest ih =>
    rcases hco : createOne e nid cont with ⟨evs, res⟩
    cases res with
    | error err => simp [createPhase, hco] at h
    | ok cd =>
      rcases hcp : createPhase e nid rest with ⟨m, evs2, errr⟩
      rw [hcp] at ih
      simp only [createPhase, hco, hcp] at h ⊢
      rw [List.all_append, Bool.and_eq_true]
      have hone : ((createOne e nid cont).1).all (evOk e) = true :=
        createOne_ok e nid cont (by rw [hco]; rfl)
      rw [hco] at hone
      exact ⟨hone, ih h⟩

theorem runPostCommands_ok (e : Engine) (name ctrID : String) (cmds : List (List String))
    (h : (runPostCommands e name ctrID cmds).2 = none) :
    ((runPostCommands e name ctrID cmds).1).all (evOk e) = true := by
  induction cmds with
  | nil => rfl
  | cons cmd rest ih =>
    rcases hce : e.createExec ctrID cmd with err | execID
    · simp [runPostCommands, hce] at h
    · rcases hse : e.startExec execID with _ | err
      · rcases hie : e.inspectExec execID with err | code
        · simp [runPostCommands, hce, hse, hie] at h
        · by_cases hcode : code = 0
          · rcases hrp : runPostCommands e name ctrID rest with ⟨evs, perr⟩
            rw [hrp] at ih
            simp only [runPostCommands, hce, hse, hie, hcode, ne_eq, not_true_eq_false,
              if_false, hrp] at h ⊢
            simp only [List.all_cons, Bool.and_eq_true]
            exact ⟨by simp [evOk, hce, exOk], by simp [evOk, hse],
              by simp [evOk, hie, hcode], ih h⟩
          · simp only [runPostCommands, hce, hse, hie] at h
            rw [if_pos hcode] at h
            simp at h
      · simp [runPostCommands, hce, hse] at h

theorem startOne_ok (e : Engine) (cont : Container)
    (h : (startOne e cont).2 = none) :
    ((startOne e cont).1).all (evOk e) = true := by
  rcases hst : e.startContainer cont.id with _ | err
  · rcases hal : (if cont.hasAliveFunc then e.aliveFunc cont.id else none) with _ | err
    · rcases hrp : runPostCommands e cont.name cont.id cont.postCommands with ⟨pEvs, pErr⟩
      have hps : pErr = none := by
        simp only [startOne, hst, hal, hrp] at h
        exact h
      subst hps
      have hpost : pEvs.all (evOk e) = true := by
        have := runPostCommands_ok e cont.name cont.id cont.postCommands (by rw [hrp])
        rw [hrp] at this
        exact this
      have hboot : (if cont.bootWait ≠ 0 then [Event.sleep cont.bootWait]
          else ([] : List Event)).all (evOk e) = true := by
        by_cases hw : cont.bootWait = 0 <;> simp [hw, evOk]
      have halive : (if cont.hasAliveFunc then [Event.call (.aliveFunc cont.id)]
          else ([] : List Event)).all (evOk e) = true := by
        cases hf : cont.hasAliveFunc with
        | true =>
          rw [hf] at hal
          simp only [if_true] at hal
          simp [evOk, hal]
        | false => simp [hf]
      simp only [startOne, hst, hal, hrp, List.all_cons, List.all_append, Bool.and_eq_true]
      exact ⟨by simp [evOk, hst], ⟨hboot, halive⟩, hpost⟩
    · simp [startOne, hst, hal] at h
  · simp [startOne, hst] at h

theorem startPhase_ok (e : Engine) (l : List Container)
    (h : (startPhase e l).2 = none) :
    ((startPhase e l).1).all (evOk e) = true := by
  induction l with
  | nil => rfl
  | cons cont rest ih =>
    rcases hso : startOne e cont with ⟨evs, res⟩
    cases res with
    | some err => simp [startPhase, hso] at h
    | none =>
      rcases hsp : startPhase e rest with ⟨evs2, err2⟩
      rw [hsp] at ih
      simp only [startPhase, hso, hsp] at h ⊢
      rw [List.all_append, Bool.and_eq_true]
      have hone := startOne_ok e cont (by rw [hso])
      rw [hso] at hone
      exact ⟨hone, ih h⟩

theorem resolveNetwork_ok (e : Engine) (o : Options)
    (h : exOk (resolveNetwork e o).2 = true) :
    ((resolveNetwork e o).1).all (evOk e) = true := by
  rcases hcn : o.createNetwork with _ | name
  · rcases hen : o.existingNetwork with _ | ident
    · simp [resolveNetwork, hcn, hen]
    · simp [resolveNetwork, hcn, hen]
  · rcases hnw : e.createNetwork name with err | netID
    · simp only [resolveNetwork, hcn, hnw] at h
      simp [exOk] at h
    · simp [resolveNetwork, hcn, hnw, evOk, exOk]

theorem resolveMounts_agree (e eB : Engine) (h4 : e.absPath = eB.absPath)
    (l : List (String × String)) : resolveMounts eB l = resolveMounts e l := by
  induction l with
  | nil => rfl
  | cons pr rest ih =>
    obtain ⟨host, target⟩ := pr
    simp only [resolveMounts, ih, ← h4]

theorem createOne_agree (e eB : Engine) (h3 : e.pullImage = eB.pullImage)
    (h4 : e.absPath = eB.absPath) (h5 : e.createContainer = eB.createContainer)
    (nid : String) (cont : Container) :
    createOne eB nid cont = createOne e nid cont := by
  simp only [createOne, ← h3, ← h5, resolveMounts_agree e eB h4]

theorem createPhase_agree (e eB : Engine) (h3 : e.pullImage = eB.pullImage)
    (h4 : e.absPath = eB.absPath) (h5 : e.createContainer = eB.createContainer)
    (nid : String) (l : List Container) :
    createPhase eB nid l = createPhase e nid l := by
  induction l with
  | nil => rfl
  | cons cont rest ih =>
    simp only [createPhase, createOne_agree e eB h3 h4 h5, ih]

theorem runPostCommands_agree (e eB : Engine) (h8 : e.createExec = eB.createExec)
    (h9 : e.startExec = eB.startExec) (h10 : e.inspectExec = eB.inspectExec)
    (name ctrID : String) (cmds : List (List String)) :
    runPostCommands eB name ctrID cmds = runPostCommands e name ctrID cmds := by
  induction cmds with
  | nil => rfl
  | cons cmd rest ih =>
    simp only [runPostCommands, ← h8, ← h9, ← h10, ih]

theorem startOne_agree (e eB : Engine) (h6 : e.startContainer = eB.startContainer)
    (h7 : e.aliveFunc = eB.aliveFunc) (h8 : e.createExec = eB.createExec)
    (h9 : e.startExec = eB.startExec) (h10 : e.inspectExec = eB.inspectExec)
    (cont : Container) : startOne eB cont = startOne e cont := by
  simp only [startOne, ← h6, ← h7, runPostCommands_agree e eB h8 h9 h10]

theorem startPhase_agree (e eB : Engine) (h6 : e.startContainer = eB.startContainer)
    (h7 : e.aliveFunc = eB.aliveFunc) (h8 : e.createExec = eB.createExec)
    (h9 : e.startExec = eB.startExec) (h10 : e.inspectExec = eB.inspectExec)
    (l : List Container) : startPhase eB l = startPhase e l := by
  induction l with
  | nil => rfl
  | cons cont rest ih =>
    simp only [startPhase, startOne_agree e eB h6 h7 h8 h9 h10, ih]

theorem resolveNetwork_agree (e eB : Engine) (h2 : e.createNetwork = eB.createNetwork)
    (o : Options) : resolveNetwork eB o = resolveNetwork e o := by
  simp only [resolveNetwork, ← h2]

theorem Launch_err_agree (e eB : Engine) (c : Composer) (h : launchAgree e eB) :
    (Launch eB c).err = (Launch e c).err := by
  obtain ⟨h1, h2, h3, h4, h5, h6, h7, h8, h9, h10⟩ := h
  have hncB : eB.newClient = e.newClient := h1.symm
  rcases hnc : e.newClient with _ | err
  · rcases hrn : resolveNetwork e c.options with ⟨nEvs, res⟩
    have hrnB : resolveNetwork eB c.options = (nEvs, res) := by
      rw [resolveNetwork_agree e eB h2, hrn]
    cases res with
    | error err =>
      have h1e : (Launch e c).err = some err := by simp only [Launch, hnc, hrn]
      have h1B : (Launch eB c).err = some err := by simp only [Launch, hncB, hnc, hrnB]
      rw [h1e, h1B]
    | ok netID =>
      rcases hcpe : createPhase e netID c.manifest with ⟨m, cEvs, cErr⟩
      have hcpB : createPhase eB netID c.manifest = (m, cEvs, cErr) := by
        rw [createPhase_agree e eB h3 h4 h5, hcpe]
      cases cErr with
      | some err =>
        have h1e : (Launch e c).err = some err := by simp only [Launch, hnc, hrn, hcpe]
        have h1B : (Launch eB c).err = some err := by
          simp only [Launch, hncB, hnc, hrnB, hcpB]
        rw [h1e, h1B]
      | none =>
        rcases hspe : startPhase e m with ⟨sEvs, sErr⟩
        have hspB : startPhase eB m = (sEvs, sErr) := by
          rw [startPhase_agree e eB h6 h7 h8 h9 h10, hspe]
        cases sErr with
        | some err =>
          have h1e : (Launch e c).err = some err := by
            simp only [Launch, hnc, hrn, hcpe, hspe]
          have h1B : (Launch eB c).err = some err := by
            simp only [Launch, hncB, hnc, hrnB, hcpB, hspB]
          rw [h1e, h1B]
        | none =>
          have h1e : (Launch e c).err = none := by
            simp only [Launch, hnc, hrn, hcpe, hspe]
          have h1B : (Launch eB c).err = none := by
            simp only [Launch, hncB, hnc, hrnB, hcpB, hspB]
          rw [h1e, h1B]
  · have h1e : (Launch e c).err = some err := by simp only [Launch, hnc]
    have h1B : (Launch eB c).err = some err := by simp only [Launch, hncB, hnc]
    rw [h1e, h1B]

theorem Launch_fail_teardown (e : Engine) (c : Composer)
    (hclient : e.newClient = none)
    (hnetok : exOk (resolveNetwork e c.options).2 = true)
    (hfail : (Launch e c).err ≠ none) :
    ∃ p, (Launch e c).trace = p ++ (Teardown e (Launch e c).comp).trace := by
  rcases hrn : resolveNetwork e c.options with ⟨nEvs, res⟩
  cases res with
  | error err =>
    rw [hrn] at hnetok
    simp [exOk] at hnetok
  | ok netID =>
    rcases hcp : createPhase e netID c.manifest with ⟨m, cEvs, cErr⟩
    cases cErr with
    | some err =>
      have hL : Launch e c =
          { comp := { c with netID := netID, manifest := m },
            trace := nEvs ++ cEvs ++
              (Teardown e { c with netID := netID, manifest := m }).trace,
            err := some err } := by
        simp only [Launch, hclient, hrn, hcp]
      rw [hL]
      exact ⟨nEvs ++ cEvs, rfl⟩
    | none =>
      rcases hsp : startPhase e m with ⟨sEvs, sErr⟩
      cases sErr with
      | some err =>
        have hL : Launch e c =
            { comp := { c with netID := netID, manifest := m },
              trace := nEvs ++ cEvs ++ sEvs ++
                (Teardown e { c with netID := netID, manifest := m }).trace,
              err := some err } := by
          simp only [Launch, hclient, hrn, hcp, hsp]
        rw [hL]
        exact ⟨nEvs ++ cEvs ++ sEvs, rfl⟩
      | none =>
        have hL : (Launch e c).err = none := by
          simp only [Launch, hclient, hrn, hcp, hsp]
        exact absurd hL hfail

theorem Launch_ok_events (e : Engine) (c : Composer)
    (hsucc : (Launch e c).err = none) :
    ((Launch e c).trace).all (evOk e) = true := by
  rcases hnc : e.newClient with _ | err
  · rcases hrn : resolveNetwork e c.options with ⟨nEvs, res⟩
    cases res with
    | error err =>
      have hL : Launch e c = { comp := c, trace := nEvs, err := some err } := by
        simp only [Launch, hnc, hrn]
      rw [hL] at hsucc
      simp at hsucc
    | ok netID =>
      rcases hcp : createPhase e netID c.manifest with ⟨m, cEvs, cErr⟩
      cases cErr with
      | some err =>
        have hL : (Launch e c).err = some err := by
          simp only [Launch, hnc, hrn, hcp]
        rw [hL] at hsucc
        simp at hsucc
      | none =>
        rcases hsp : startPhase e m with ⟨sEvs, sErr⟩
        cases sErr with
        | some err =>
          have hL : (Launch e c).err = some err := by
            simp only [Launch, hnc, hrn, hcp, hsp]
          rw [hL] at hsucc
          simp at hsucc
        | none =>
          have hL : (Launch e c).trace = nEvs ++ cEvs ++ sEvs := by
            simp only [Launch, hnc, hrn, hcp, hsp]
          rw [hL]
          simp only [List.all_append, Bool.and_eq_true]
          refine ⟨⟨?_, ?_⟩, ?_⟩
          · have := resolveNetwork_ok e c.options (by rw [hrn]; rfl)
            rw [hrn] at this
            exact this
          · have := createPhase_ok e netID c.manifest (by rw [hcp])
            rw [hcp] at this
            exact this
          · have := startPhase_ok e m (by rw [hsp])
            rw [hsp] at this
            exact this
  · have hL : (Launch e c).err = some err := by
      simp only [Launch, hnc]
    rw [hL] at hsucc
    simp at hsucc

/-- C1: on any manifest, once the network has been resolved, every
failing `Launch` (image pull, bind-mount resolution, container
creation or start, readiness check, exec creation/start/inspection, or
a non-zero post-command exit) invokes `Teardown` on its final state
before returning — the teardown trace is a suffix of the launch trace;
the returned error is the failing step's own error, independent of
every teardown-side call result (any engine agreeing on the
launch-side calls yields the identical error); and `Launch` returns
success only when every performed step succeeded. -/
theorem c1_launch_failure_rolls_back (e eB : Engine) (c : Composer)
    (hclient : e.newClient = none)
    (hnetok : exOk (resolveNetwork e c.options).2 = true)
    (hagree : launchAgree e eB) :
    ((Launch e c).err = none → ((Launch e c).trace).all (evOk e) = true) ∧
    ((Launch e c).err ≠ none →
      ∃ p, (Launch e c).trace = p ++ (Teardown e (Launch e c).comp).trace) ∧
    (Launch eB c).err = (Launch e c).err :=
  ⟨fun h => Launch_ok_events e c h,
    fun h => Launch_fail_teardown e c hclient hnetok h,
    Launch_err_agree e eB c hagree⟩

theorem c1_launch_failure_rolls_back_witness :
    okEngine.newClient = none ∧
    exOk (resolveNetwork okEngine badExitComposer.options).2 = true ∧
    launchAgree okEngine okEngine ∧
    (((Launch okEngine badExitComposer).err = none →
        ((Launch okEngine badExitComposer).trace).all (evOk okEngine) = true) ∧
      ((Launch okEngine badExitComposer).err ≠ none →
        ∃ p, (Launch okEngine badExitComposer).trace =
          p ++ (Teardown okEngine (Launch okEngine badExitComposer).comp).trace) ∧
      (Launch okEngine badExitComposer).err = (Launch okEngine badExitComposer).err) :=
  ⟨rfl, rfl, ⟨rfl, rfl, rfl, rfl, rfl, rfl, rfl, rfl, rfl, rfl⟩,
    c1_launch_failure_rolls_back okEngine okEngine badExitComposer rfl rfl
      ⟨rfl, rfl, rfl, rfl, rfl, rfl, rfl, rfl, rfl, rfl⟩⟩

theorem resolveNetwork_events (e : Engine) (o : Options) :
    ∀ ev ∈ (resolveNetwork e o).1, ∃ n, ev = Event.call (.createNetwork n) := by
  intro ev hev
  rcases hcn : o.createNetwork with _ | name
  · rcases hen : o.existingNetwork with _ | ident <;>
      simp [resolveNetwork, hcn, hen] at hev
  · rcases hnw : e.createNetwork name with err | netID <;>
      (simp [resolveNetwork, hcn, hnw] at hev; exact ⟨name, hev⟩)

/-- C6: if network resolution fails — no network mode configured, or
network creation returned an error — `Launch` returns that error at
once with the Composer untouched: no `Teardown` is invoked and the
whole trace consists of at most the network-creation attempt (in
particular no image pull and no container creation happened). -/
theorem c6_network_failure_fails_fast (e : Engine) (c : Composer) (err : String)
    (hclient : e.newClient = none)
    (hnet : (resolveNetwork e c.options).2 = Except.error err) :
    Launch e c = { comp := c, trace := (resolveNetwork e c.options).1, err := some err } ∧
    (∀ ev ∈ (Launch e c).trace, ∃ n, ev = Event.call (.createNetwork n)) := by
  rcases hrn : resolveNetwork e c.options with ⟨nEvs, res⟩
  rw [hrn] at hnet
  simp only at hnet
  subst hnet
  have hL : Launch e c = { comp := c, trace := nEvs, err := some err } := by
    simp only [Launch, hclient, hrn]
  constructor
  · rw [hL]
  · rw [hL]
    intro ev hev
    have := resolveNetwork_events e c.options
    rw [hrn] at this
    exact this ev hev

theorem startIds_append (a b : List Event) :
    startIds (a ++ b) = startIds a ++ startIds b := by
  simp [startIds]

theorem createNames_append (a b : List Event) :
    createNames (a ++ b) = createNames a ++ createNames b := by
  simp [createNames]

theorem resolveMounts_ids (e : Engine) (l : List (String × String)) :
    startIds (resolveMounts e l).1 = [] ∧ createNames (resolveMounts e l).1 = [] := by
  induction l with
  | nil => exact ⟨rfl, rfl⟩
  | cons pr rest ih =>
    obtain ⟨host, target⟩ := pr
    rcases hrm : resolveMounts e rest with ⟨evs, res⟩
    rw [hrm] at ih
    have ih1 : startIds evs = [] := ih.1
    have ih2 : createNames evs = [] := ih.2
    simp only [startIds] at ih1
    simp only [createNames] at ih2
    cases habs : host.startsWith "/" with
    | true =>
      cases res <;> simp only [resolveMounts, habs, if_true, hrm] <;>
        exact ⟨ih.1, ih.2⟩
    | false =>
      rcases hab : e.absPath host with err | hostAbs
      · simp [resolveMounts, habs, hab, startIds, createNames]
      · cases res <;>
          simp only [resolveMounts, habs, Bool.false_eq_true, if_false, hab, hrm] <;>
          exact ⟨by simp [startIds, ih1], by simp [createNames, ih2]⟩

theorem createOne_startIds (e : Engine) (nid : String) (cont : Container) :
    startIds (createOne e nid cont).1 = [] := by
  have hp : startIds (if cont.localImage then ([] : List Event)
      else [Event.call (.pullImage cont.image)]) = [] := by
    cases cont.localImage <;> simp [startIds]
  rcases hpr : (if cont.localImage then none else e.pullImage cont.image) with _ | err
  · have hm := (resolveMounts_ids e cont.bindMounts).1
    rcases hrm : resolveMounts e cont.bindMounts with ⟨mEvs, mres⟩
    rw [hrm] at hm
    have hm1 : startIds mEvs = [] := hm
    cases mres with
    | error err =>
      simp only [createOne, hpr, hrm]
      rw [startIds_append, hp, hm1]
      rfl
    | ok mounts =>
      rcases hcc : e.createContainer (createOptsOf nid cont mounts) with err | ctrID <;>
        simp only [createOne, hpr, hrm, hcc] <;>
        (rw [startIds_append, startIds_append, hp, hm1]; simp [startIds])
  · simp only [createOne, hpr]
    exact hp

theorem createOne_names_ok (e : Engine) (nid : String) (cont : Container) (cd : Container)
    (h : (createOne e nid cont).2 = Except.ok cd) :
    createNames (createOne e nid cont).1 = [cont.name] := by
  have hp : createNames (if cont.localImage then ([] : List Event)
      else [Event.call (.pullImage cont.image)]) = [] := by
    cases cont.localImage <;> simp [createNames]
  rcases hpr : (if cont.localImage then none else e.pullImage cont.image) with _ | err
  · have hm := (resolveMounts_ids e cont.bindMounts).2
    rcases hrm : resolveMounts e cont.bindMounts with ⟨mEvs, mres⟩
    rw [hrm] at hm
    have hm1 : createNames mEvs = [] := hm
    cases mres with
    | error err => simp [createOne, hpr, hrm] at h
    | ok mounts =>
      rcases hcc : e.createContainer (createOptsOf nid cont mounts) with err | ctrID
      · simp [createOne, hpr, hrm, hcc] at h
      · simp only [createOne, hpr, hrm, hcc]
        rw [createNames_append, createNames_append, hp, hm1]
        simp [createNames, createOptsOf]
  · simp [createOne, hpr] at h

theorem createPhase_startIds (e : Engine) (nid : String) (l : List Container) :
    startIds (createPhase e nid l).2.1 = [] := by
  induction l with
  | nil => rfl
  | cons cont rest ih =>
    have hone := createOne_startIds e nid cont
    rcases hco : createOne e nid cont with ⟨evs, res⟩
    rw [hco] at hone
    have hone1 : startIds evs = [] := hone
    cases res with
    | error err =>
      simp only [createPhase, hco]
      exact hone1
    | ok cd =>
      rcases hcp : createPhase e nid rest with ⟨m, evs2, errr⟩
      rw [hcp] at ih
      have ih1 : startIds evs2 = [] := ih
      simp only [createPhase, hco, hcp]
      rw [startIds_append, hone1, ih1]
      rfl

theorem createPhase_names (e : Engine) (nid : String) (l : List Container)
    (h : (createPhase e nid l).2.2 = none) :
    createNames (createPhase e nid l).2.1 = l.map (fun cont => cont.name) := by
  induction l with
  | nil => rfl
  | cons cont rest ih =>
    rcases hco : createOne e nid cont with ⟨evs, res⟩
    cases res with
    | error err => simp [createPhase, hco] at h
    | ok cd =>
      have hone : createNames evs = [cont.name] := by
        have := createOne_names_ok e nid cont cd (by rw [hco])
        rw [hco] at this
        exact this
      rcases hcp : createPhase e nid rest with ⟨m, evs2, errr⟩
      rw [hcp] at ih
      simp only [createPhase, hco, hcp] at h ⊢
      rw [createNames_append, hone, ih h, List.map_cons]
      rfl

theorem runPostCommands_ids (e : Engine) (name ctrID : String) (cmds : List (List String)) :
    startIds (runPostCommands e name ctrID cmds).1 = [] ∧
    createNames (runPostCommands e name ctrID cmds).1 = [] := by
  induction cmds with
  | nil => exact ⟨rfl, rfl⟩
  | cons cmd rest ih =>
    rcases hce : e.createExec ctrID cmd with err | execID
    · exact ⟨by simp [runPostCommands, hce, startIds],
        by simp [runPostCommands, hce, createNames]⟩
    · rcases hse : e.startExec execID with _ | err
      · rcases hie : e.inspectExec execID with err | code
        · exact ⟨by simp [runPostCommands, hce, hse, hie, startIds],
            by simp [runPostCommands, hce, hse, hie, createNames]⟩
        · by_cases hcode : code = 0
          · rcases hrp : runPostCommands e name ctrID rest with ⟨evs, perr⟩
            rw [hrp] at ih
            have ih1 : startIds evs = [] := ih.1
            have ih2 : createNames evs = [] := ih.2
            simp only [startIds] at ih1
            simp only [createNames] at ih2
            simp only [runPostCommands, hce, hse, hie, hcode, ne_eq, not_true_eq_false,
              if_false, hrp]
            exact ⟨by simp [startIds, ih1], by simp [createNames, ih2]⟩
          · simp only [runPostCommands, hce, hse, hie]
            rw [if_pos hcode]
            exact ⟨by simp [startIds], by simp [createNames]⟩
      · exact ⟨by simp [runPostCommands, hce, hse, startIds],
          by simp [runPostCommands, hce, hse, createNames]⟩

theorem startOne_ids (e : Engine) (cont : Container) :
    startIds (startOne e cont).1 = [cont.id] ∧
    createNames (startOne e cont).1 = [] := by
  have hrpi := runPostCommands_ids e cont.name cont.id cont.postCommands
  rcases hrp : runPostCommands e cont.name cont.id cont.postCommands with ⟨pEvs, pErr⟩
  rw [hrp] at hrpi
  have hp1 : startIds pEvs = [] := hrpi.1
  have hp2 : createNames pEvs = [] := hrpi.2
  simp only [startIds] at hp1
  simp only [createNames] at hp2
  rcases hst : e.startContainer cont.id with _ | err
  · cases hf : cont.hasAliveFunc with
    | false =>
      by_cases hw : cont.bootWait = 0 <;>
        exact ⟨by simp [startOne, hst, hf, hw, hrp, startIds, hp1],
          by simp [startOne, hst, hf, hw, hrp, createNames, hp2]⟩
    | true =>
      rcases hal : e.aliveFunc cont.id with _ | err
      · by_cases hw : cont.bootWait = 0 <;>
          exact ⟨by simp [startOne, hst, hf, hal, hw, hrp, startIds, hp1],
            by simp [startOne, hst, hf, hal, hw, hrp, createNames, hp2]⟩
      · by_cases hw : cont.bootWait = 0 <;>
          exact ⟨by simp [startOne, hst, hf, hal, hw, startIds],
            by simp [startOne, hst, hf, hal, hw, createNames]⟩
  · exact ⟨by simp [startOne, hst, startIds], by simp [startOne, hst, createNames]⟩

theorem startPhase_createNames (e : Engine) (l : List Container) :
    createNames (startPhase e l).1 = [] := by
  induction l with
  | nil => rfl
  | cons cont rest ih =>
    have hone := (startOne_ids e cont).2
    rcases hso : startOne e cont with ⟨evs, res⟩
    rw [hso] at hone
    have hone2 : createNames evs = [] := hone
    cases res with
    | some err =>
      simp only [startPhase, hso]
      exact hone2
    | none =>
      rcases hsp : startPhase e rest with ⟨evs2, err2⟩
      rw [hsp] at ih
      have ih2 : createNames evs2 = [] := ih
      simp only [startPhase, hso, hsp]
      rw [createNames_append, hone2, ih2]
      rfl

theorem startPhase_startIds (e : Engine) (l : List Container) :
    ∃ k, startIds (startPhase e l).1 = (l.map (fun cont => cont.id)).take k := by
  induction l with
  | nil => exact ⟨0, rfl⟩
  | cons cont rest ih =>
    have hone := (startOne_ids e cont).1
    rcases hso : startOne e cont with ⟨evs, res⟩
    rw [hso] at hone
    have hone1 : startIds evs = [cont.id] := hone
    cases res with
    | some err =>
      refine ⟨1, ?_⟩
      simp only [startPhase, hso, List.map_cons]
      rw [hone1]
      rfl
    | none =>
      obtain ⟨k, hk⟩ := ih
      rcases hsp : startPhase e rest with ⟨evs2, err2⟩
      rw [hsp] at hk
      have hk2 : startIds evs2 = (rest.map (fun cont => cont.id)).take k := hk
      refine ⟨k + 1, ?_⟩
      simp only [startPhase, hso, hsp, List.map_cons, List.take_succ_cons]
      rw [startIds_append, hone1, hk2]
      rfl

theorem teardown_ids (e : Engine) (c : Composer) :
    startIds (Teardown e c).trace = [] ∧ createNames (Teardown e c).trace = [] := by
  have hcan1 : startIds (if c.sigArmed then [Event.cancelWatcher] else []) = [] := by
    cases c.sigArmed <;> simp [startIds]
  have hcan2 : createNames (if c.sigArmed then [Event.cancelWatcher] else []) = [] := by
    cases c.sigArmed <;> simp [createNames]
  have hct : ∀ l : List Container, startIds (teardownContainers e l).1 = [] ∧
      createNames (teardownContainers e l).1 = [] := by
    intro l
    induction l with
    | nil => exact ⟨rfl, rfl⟩
    | cons cont rest ihl =>
      rcases htc : teardownContainers e rest with ⟨evs, errs⟩
      rw [htc] at ihl
      have ih1 : startIds evs = [] := ihl.1
      have ih2 : createNames evs = [] := ihl.2
      simp only [startIds] at ih1
      simp only [createNames] at ih2
      by_cases hid : cont.id = ""
      · simp only [teardownContainers, htc, hid, ne_eq, not_true_eq_false, if_false]
        exact ⟨ihl.1, ihl.2⟩
      · simp only [teardownContainers, htc]
        rw [if_pos hid]
        exact ⟨by simp [startIds, ih1], by simp [createNames, ih2]⟩
  have hnet1 : startIds (if (c.options.createNetwork).isSome
      then [Event.call (.removeNetwork c.netID)] else []) = [] := by
    cases (c.options.createNetwork).isSome <;> simp [startIds]
  have hnet2 : createNames (if (c.options.createNetwork).isSome
      then [Event.call (.removeNetwork c.netID)] else []) = [] := by
    cases (c.options.createNetwork).isSome <;> simp [createNames]
  rcases hnc : e.newClient with _ | err
  · have h := hct c.manifest
    rcases htc : teardownContainers e c.manifest with ⟨ctEvs, errs⟩
    rw [htc] at h
    have h1 : startIds ctEvs = [] := h.1
    have h2 : createNames ctEvs = [] := h.2
    simp only [Teardown, hnc, htc]
    constructor
    · rw [startIds_append, startIds_append, hcan1, h1, hnet1]
      rfl
    · rw [createNames_append, createNames_append, hcan2, h2, hnet2]
      rfl
  · simp only [Teardown, hnc]
    exact ⟨hcan1, hcan2⟩

theorem resolveNetwork_ids (e : Engine) (o : Options) :
    startIds (resolveNetwork e o).1 = [] ∧ createNames (resolveNetwork e o).1 = [] := by
  rcases hcn : o.createNetwork with _ | name
  · rcases hen : o.existingNetwork with _ | ident <;>
      exact ⟨by simp [resolveNetwork, hcn, hen, startIds],
        by simp [resolveNetwork, hcn, hen, createNames]⟩
  · rcases hnw : e.createNetwork name with err | netID <;>
      exact ⟨by simp [resolveNetwork, hcn, hnw, startIds],
        by simp [resolveNetwork, hcn, hnw, createNames]⟩

/-- C9: when the network resolves and the creation phase completes,
`Launch`'s trace splits into a part with no container-start call
followed by a part with no container-creation call: every container
is created, in manifest order (the created names read back exactly as
the manifest), before any is started, and the starts then follow a
prefix of the recorded runtime identifiers in manifest order. -/
theorem c9_creates_precede_starts (e : Engine) (c : Composer) (netID : String)
    (hclient : e.newClient = none)
    (hnet : (resolveNetwork e c.options).2 = Except.ok netID)
    (hcreate : (createPhase e netID c.manifest).2.2 = none) :
    ∃ A B, (Launch e c).trace = A ++ B ∧
      startIds A = [] ∧
      createNames B = [] ∧
      createNames (Launch e c).trace = c.manifest.map (fun cont => cont.name) ∧
      (∃ k, startIds (Launch e c).trace =
        (((Launch e c).comp.manifest).map (fun cont => cont.id)).take k) := by
  rcases hrn : resolveNetwork e c.options with ⟨nEvs, res⟩
  rw [hrn] at hnet
  simp only at hnet
  subst hnet
  have hnids := resolveNetwork_ids e c.options
  rw [hrn] at hnids
  have hn1 : startIds nEvs = [] := hnids.1
  have hn2 : createNames nEvs = [] := hnids.2
  have hcs := createPhase_startIds e netID c.manifest
  have hcnm := createPhase_names e netID c.manifest hcreate
  rcases hcp : createPhase e netID c.manifest with ⟨m, cEvs, cErr⟩
  rw [hcp] at hcreate hcs hcnm
  have hc1 : startIds cEvs = [] := hcs
  have hc2 : createNames cEvs = c.manifest.map (fun cont => cont.name) := hcnm
  simp only at hcreate
  subst hcreate
  have hsn := startPhase_createNames e m
  have hss := startPhase_startIds e m
  rcases hsp : startPhase e m with ⟨sEvs, sErr⟩
  rw [hsp] at hsn hss
  have hs2 : createNames sEvs = [] := hsn
  obtain ⟨k, hs1⟩ := hss
  have hs1b : startIds sEvs = (m.map (fun cont => cont.id)).take k := hs1
  cases sErr with
  | none =>
    have hL : Launch e c =
        { comp := { c with netID := netID, manifest := m },
          trace := nEvs ++ cEvs ++ sEvs, err := none } := by
      simp only [Launch, hclient, hrn, hcp, hsp]
    refine ⟨nEvs ++ cEvs, sEvs, by rw [hL], ?_, hs2, ?_, ⟨k, ?_⟩⟩
    · rw [startIds_append, hn1, hc1]
      rfl
    · rw [hL]
      show createNames (nEvs ++ cEvs ++ sEvs) = _
      rw [createNames_append, createNames_append, hn2, hc2, hs2]
      simp
    · rw [hL]
      show startIds (nEvs ++ cEvs ++ sEvs) = (m.map (fun cont => cont.id)).take k
      rw [startIds_append, startIds_append, hn1, hc1, hs1b]
      simp
  | some err =>
    have hL : Launch e c =
        { comp := { c with netID := netID, manifest := m },
          trace := nEvs ++ cEvs ++ sEvs ++
            (Teardown e { c with netID := netID, manifest := m }).trace,
          err := some err } := by
      simp only [Launch, hclient, hrn, hcp, hsp]
    have htd := teardown_ids e { c with netID := netID, manifest := m }
    refine ⟨nEvs ++ cEvs,
      sEvs ++ (Teardown e { c with netID := netID, manifest := m }).trace,
      by rw [hL]; simp, ?_, ?_, ?_, ⟨k, ?_⟩⟩
    · rw [startIds_append, hn1, hc1]
      rfl
    · rw [createNames_append, hs2, htd.2]
      rfl
    · rw [hL]
      show createNames (nEvs ++ cEvs ++ sEvs ++ _) = _
      rw [createNames_append, createNames_append, createNames_append,
        hn2, hc2, hs2, htd.2]
      simp
    · rw [hL]
      show startIds (nEvs ++ cEvs ++ sEvs ++ _) =
        (m.map (fun cont => cont.id)).take k
      rw [startIds_append, startIds_append, startIds_append,
        hn1, hc1, hs1b, htd.1]
      simp

theorem c9_creates_precede_starts_witness :
    okEngine.newClient = none ∧
    (resolveNetwork okEngine sampleComposer.options).2 =
      Except.ok "net-duct-test-network" ∧
    (createPhase okEngine "net-duct-test-network" sampleComposer.manifest).2.2 = none ∧
    (∃ A B, (Launch okEngine sampleComposer).trace = A ++ B ∧
      startIds A = [] ∧
      createNames B = [] ∧
      createNames (Launch okEngine sampleComposer).trace =
        sampleComposer.manifest.map (fun cont => cont.name) ∧
      (∃ k, startIds (Launch okEngine sampleComposer).trace =
        (((Launch okEngine sampleComposer).comp.manifest).map (fun cont => cont.id)).take k)) :=
  ⟨rfl, rfl, rfl,
    c9_creates_precede_starts okEngine sampleComposer "net-duct-test-network" rfl rfl rfl⟩

theorem c6_network_failure_fails_fast_witness :
    okEngine.newClient = none ∧
    (resolveNetwork okEngine noNetComposer.options).2 =
      Except.error "compositions must have a network specified" ∧
    (Launch okEngine noNetComposer =
      { comp := noNetComposer, trace := (resolveNetwork okEngine noNetComposer.options).1,
        err := some "compositions must have a network specified" } ∧
      (∀ ev ∈ (Launch okEngine noNetComposer).trace,
        ∃ n, ev = Event.call (.createNetwork n))) :=
  ⟨rfl, rfl,
    c6_network_failure_fails_fast okEngine noNetComposer
      "compositions must have a network specified" rfl rfl⟩

/-- C8: a post-start command whose inspected exit status is non-zero
fails the launch even though its container is running and the command
executed: after any prefix of cleanly-exiting commands, the offending
command yields exactly the distinctive invalid-exit error and the
commands after it contribute no events; and any `Launch` whose start
phase surfaces this error returns exactly it after invoking
`Teardown` on its final state — so the remaining containers are not
processed. -/
theorem c8_nonzero_postcommand_fails_launch
    (e : Engine) (name ctrID execID : String) (cmd : List String)
    (pre post : List (List String)) (k : Int)
    (hpre : ∀ cPre ∈ pre, cmdOk e ctrID cPre)
    (h1 : e.createExec ctrID cmd = Except.ok execID)
    (h2 : e.startExec execID = none)
    (h3 : e.inspectExec execID = Except.ok k)
    (hk : k ≠ 0) :
    (runPostCommands e name ctrID (pre ++ cmd :: post)).2 =
      some (invalidExitMsg name cmd) ∧
    (runPostCommands e name ctrID (pre ++ cmd :: post)).1 =
      (pre.map (cmdEvents e ctrID)).flatten ++
        [Event.call (.createExec ctrID cmd), Event.call (.startExec execID),
          Event.call (.inspectExec execID)] ∧
    (∀ (cB : Composer) (netID : String),
      e.newClient = none →
      (resolveNetwork e cB.options).2 = Except.ok netID →
      (createPhase e netID cB.manifest).2.2 = none →
      (startPhase e (createPhase e netID cB.manifest).1).2 =
        some (invalidExitMsg name cmd) →
      (Launch e cB).err = some (invalidExitMsg name cmd) ∧
        ∃ p, (Launch e cB).trace = p ++ (Teardown e (Launch e cB).comp).trace) := by
  have hrun : ∀ pre2 : List (List String), (∀ cPre ∈ pre2, cmdOk e ctrID cPre) →
      runPostCommands e name ctrID (pre2 ++ cmd :: post) =
      ((pre2.map (cmdEvents e ctrID)).flatten ++
        [Event.call (.createExec ctrID cmd), Event.call (.startExec execID),
          Event.call (.inspectExec execID)],
        some (invalidExitMsg name cmd)) := by
    intro pre2
    induction pre2 with
    | nil =>
      intro _
      simp only [List.nil_append, List.map_nil, List.flatten_nil]
      simp only [runPostCommands, h1, h2, h3]
      rw [if_pos hk]
    | cons c0 rest ih =>
      intro hpre2
      obtain ⟨x, hx1, hx2, hx3⟩ := hpre2 c0 (List.mem_cons_self c0 rest)
      have ihh := ih (fun cc hcc => hpre2 cc (List.mem_cons_of_mem c0 hcc))
      simp only [List.cons_append, runPostCommands, hx1, hx2, hx3]
      simp [List.append_eq, ihh, cmdEvents, hx1, hx2]
  refine ⟨by rw [hrun pre hpre], by rw [hrun pre hpre], ?_⟩
  intro cB netID hcl hrnB hcpB hspB
  have herr : (Launch e cB).err = some (invalidExitMsg name cmd) := by
    rcases hrn2 : resolveNetwork e cB.options with ⟨nEvs, res⟩
    rw [hrn2] at hrnB
    simp only at hrnB
    subst hrnB
    rcases hcp2 : createPhase e netID cB.manifest with ⟨m, cEvs, cErr⟩
    rw [hcp2] at hcpB hspB
    simp only at hcpB hspB
    subst hcpB
    rcases hsp2 : startPhase e m with ⟨sEvs, sErr⟩
    rw [hsp2] at hspB
    simp only at hspB
    subst hspB
    simp only [Launch, hcl, hrn2, hcp2, hsp2]
  refine ⟨herr, Launch_fail_teardown e cB hcl ?_ ?_⟩
  · rw [hrnB]
    rfl
  · rw [herr]
    simp

theorem c8_nonzero_postcommand_fails_launch_witness :
    (∀ cPre ∈ ([] : List (List String)), cmdOk badExitEngine "ctr-post-command-exit" cPre) ∧
    badExitEngine.createExec "ctr-post-command-exit" ["false"] =
      Except.ok "exec-ctr-post-command-exit" ∧
    badExitEngine.startExec "exec-ctr-post-command-exit" = none ∧
    badExitEngine.inspectExec "exec-ctr-post-command-exit" = Except.ok 1 ∧
    (1 : Int) ≠ 0 ∧
    ((runPostCommands badExitEngine "post-command-exit" "ctr-post-command-exit"
        ([] ++ ["false"] :: [["echo", "hi"]])).2 =
      some (invalidExitMsg "post-command-exit" ["false"]) ∧
    (runPostCommands badExitEngine "post-command-exit" "ctr-post-command-exit"
        ([] ++ ["false"] :: [["echo", "hi"]])).1 =
      (([] : List (List String)).map (cmdEvents badExitEngine "ctr-post-command-exit")).flatten ++
        [Event.call (.createExec "ctr-post-command-exit" ["false"]),
          Event.call (.startExec "exec-ctr-post-command-exit"),
          Event.call (.inspectExec "exec-ctr-post-command-exit")] ∧
    (∀ (cB : Composer) (netID : String),
      badExitEngine.newClient = none →
      (resolveNetwork badExitEngine cB.options).2 = Except.ok netID →
      (createPhase badExitEngine netID cB.manifest).2.2 = none →
      (startPhase badExitEngine (createPhase badExitEngine netID cB.manifest).1).2 =
        some (invalidExitMsg "post-command-exit" ["false"]) →
      (Launch badExitEngine cB).err =
        some (invalidExitMsg "post-command-exit" ["false"]) ∧
        ∃ p, (Launch badExitEngine cB).trace =
          p ++ (Teardown badExitEngine (Launch badExitEngine cB).comp).trace)) :=
  ⟨fun cPre h => absurd h (List.not_mem_nil cPre), rfl, rfl, rfl, by decide,
    c8_nonzero_postcommand_fails_launch badExitEngine "post-command-exit"
      "ctr-post-command-exit" "exec-ctr-post-command-exit" ["false"]
      [] [["echo", "hi"]] 1
      (fun cPre h => absurd h (List.not_mem_nil cPre)) rfl rfl rfl (by decide)⟩

end Duct
